import Mathlib

/-!
Verification of the webhooks-extension service (Tekton experimental repo).

This file shallowly embeds the Go source under scrutiny:
  * `pkg/endpoints/validate.go`   — `checkWebhook`, `sanitizeGitURL`
  * `pkg/model` (webhook model)   — `ValidateWebhookName`, `CredentialRequest.Validate`
  * `pkg/endpoints/webhook.go`    — `CreateWebhook`, `DeleteWebhook`,
                                    `updateEventListener`, `newTrigger`,
                                    `getParams`, `getGitValues`
  * `pkg/endpoints/credential.go` — `CreateCredential`, `DeleteCredential`,
                                    `GetAllCredentials`, `credentialRequestToSecret`,
                                    `secretToCredentialResponse`, `isCredential`
  * `pkg/util`                    — `GetRandomToken`, `WriteResponseLocation`

Go strings are modelled as Lean `String` (byte length modelled as character
count; all literals involved are ASCII, where the two agree).  Fallible Go
functions returning `(T, error)` are modelled as `Except String T`.  The
Kubernetes / Tekton API server is an external collaborator; the handful of
client calls the handlers make are modelled explicitly as operations on a
small in-memory cluster state, following the Kubernetes API semantics the
code relies on (create fails on an existing name, delete fails with
not-found on a missing name).
-/

/-- Models Go `strings.TrimSuffix`: drops one occurrence of `suf` from the
end of `s` when present, otherwise returns `s` unchanged. -/
def trimSuffix (s suf : String) : String :=
  if s.endsWith suf then s.dropRight suf.length else s

/-- Models Go `strings.TrimPrefix` (drops one leading occurrence of `p`). -/
def trimPfx (s p : String) : String :=
  if s.startsWith p then s.drop p.length else s

/-- Models Go `strings.Contains` (substring containment) for a non-empty
needle, via `String.splitOn`: `sub` occurs in `s` iff splitting on it
produces more than one piece. -/
def goContains (s sub : String) : Bool :=
  (s.splitOn sub).length != 1

/-- A parsed URL, as far as `sanitizeGitURL` consumes one: the pieces of Go
`net/url.URL` that the validator reads (`Scheme`, `Host`, `Path`). -/
structure GoURL where
  scheme : String
  host : String
  path : String
deriving DecidableEq, Repr

/-- Models Go `url.URL.Hostname()`: the host with any `:port` part
stripped. -/
def GoURL.hostname (u : GoURL) : String :=
  u.host.takeWhile (fun c => c != ':')

/-- Modelled from the Go standard library: `net/url.ParseRequestURI` on the
absolute `scheme://host/path` URLs this service handles.  The text before
the first `://` is the scheme, the segment up to the next `/` is the host,
and the rest (with its leading `/`) is the path.  A string with no `://`
separator is only accepted when it is an absolute path (leading `/`), in
which case scheme and host are empty — otherwise parsing errors, as
`ParseRequestURI` does for non-absolute request URIs. -/
def parseRequestURI (rawurl : String) : Except String GoURL :=
  match rawurl.splitOn "://" with
  | [] => Except.error "invalid URI for request"
  | [s] =>
    if s.startsWith "/" then Except.ok { scheme := "", host := "", path := s }
    else Except.error "invalid URI for request"
  | scheme :: rest =>
    let hostAndPath := String.intercalate "://" rest
    match hostAndPath.splitOn "/" with
    | [] => Except.ok { scheme := scheme, host := "", path := "" }
    | [h] => Except.ok { scheme := scheme, host := h, path := "" }
    | h :: segs => Except.ok { scheme := scheme, host := h, path := "/" ++ String.intercalate "/" segs }

/-- True when an `Except` carries an error. -/
def isErr {α : Type} : Except String α → Bool
  | Except.error _ => true
  | Except.ok _ => false

/-- Embeds `sanitizeGitURL` (pkg/endpoints/validate.go lines 49-67),
including its scheme test exactly as written in the source:
`url.Scheme != "http" || url.Scheme != "https"`. -/
def sanitizeGitURL (rawurl : String) : Except String GoURL :=
  match parseRequestURI (trimSuffix rawurl ".git") with
  | Except.error e => Except.error e
  | Except.ok url =>
    if !(url.hostname.endsWith ".com") then
      Except.error ("URL hostname " ++ url.hostname ++ " is invalid")
    else if url.scheme ≠ "http" ∨ url.scheme ≠ "https" then
      Except.error ("URL scheme " ++ url.scheme ++ " is invalid")
    else
      let s := url.path.splitOn "/"
      if s.length ≠ 3 ∨ s.getD 1 "" = "" ∨ s.getD 2 "" = "" then
        Except.error ("URL path " ++ url.path ++ " is invalid")
      else Except.ok url

/-- The webhook creation payload (`webhook` struct, pkg/endpoints/webhook.go
lines 68-86; the Go field `Namespace` is spelled `ns` here because
`namespace` is a Lean keyword). -/
structure Webhook where
  name : String
  ns : String
  serviceAccount : String
  accessTokenRef : String
  pipeline : String
  dockerRegistry : String
  gitRepositoryURL : String
deriving DecidableEq, Repr

/-- Embeds `checkWebhook` (pkg/endpoints/validate.go lines 24-44): the
payload validation used by `CreateWebhook`.  It rejects exactly the empty
fields it lists — note that it inspects only emptiness of the name and
performs no length or hyphen check, and that it never looks at
`Pipeline`. -/
def checkWebhook (w : Webhook) : Except String Unit :=
  if w.name = "" then Except.error "Name must cannot be empty"
  else if w.ns = "" then Except.error "Namespace cannot be empty"
  else if w.serviceAccount = "" then Except.error "ServiceAccount cannot be emptyd"
  else if w.accessTokenRef = "" then Except.error "AccessTokenRef cannot be empty"
  else if w.dockerRegistry = "" then Except.error "Docker Registry cannot be empty"
  else if w.gitRepositoryURL = "" then Except.error "GitRepositoryURL cannot be empty"
  else Except.ok ()

/-- Embeds `ValidateWebhookName` (pkg/model webhook model, the unnamed
source part defining package `model`): empty, longer than 57 characters,
or containing a hyphen is rejected.  Go `strings.Contains(name, "-")`
tests a one-character needle, which is membership of that character. -/
def ValidateWebhookName (name : String) : Except String Unit :=
  if name.length = 0 then Except.error "Name must cannot be empty"
  else if name.length > 57 then Except.error "Name must be less than 58 characters"
  else if name.toList.contains '-' then Except.error "Name may not contains hyphens"
  else Except.ok ()

/-- The credential creation payload (`CredentialRequest`,
pkg/model/credential_request.go). -/
structure CredentialRequest where
  name : String
  accessToken : String
deriving DecidableEq, Repr

/-- Embeds `CredentialRequest.Validate`
(pkg/model/credential_request.go lines 16-24): both fields must be
non-empty. -/
def CredentialRequest.Validate (c : CredentialRequest) : Except String Unit :=
  if c.name = "" then Except.error "Name cannot be empty"
  else if c.accessToken = "" then Except.error "AccessToken cannot be empty"
  else Except.ok ()

/-- The token alphabet `letterBytes` (pkg/util random-token file): nine
digits and the 52 letters, 61 characters in all. -/
def letterBytes : List Char :=
  "123456789abcdefghijklmnopqrstuvwxyzABCDEFGHIJKLMNOPQRSTUVWXYZ".toList

/-- `letterIdxBits` from the source: six bits represent a letter index. -/
def letterIdxBits : Nat := 6

/-- `letterIdxMask` from the source: all one-bits, as many as
`letterIdxBits`. -/
def letterIdxMask : Nat := 2 ^ letterIdxBits - 1

/-- `letterIdxMax` from the source: how many letter indices fit in the 63
random bits of one `Int63` call. -/
def letterIdxMax : Nat := 63 / letterIdxBits

/-- A random source is the sequence of values produced by successive
`src.Int63()` calls; each value is a 63-bit natural.  `chunkStream src k`
is the `k`-th six-bit index the generator inspects: the loop walks the ten
six-bit chunks of each `Int63` value from least significant upwards
(`cache & letterIdxMask`, then `cache >>= letterIdxBits`), refilling the
cache from the next source value when `remain` hits zero. -/
def chunkStream (src : Nat → Nat) (k : Nat) : Nat :=
  ((src (k / letterIdxMax)) >>> (letterIdxBits * (k % letterIdxMax))) &&& letterIdxMask

/-- The generator loop of `GetRandomToken` / `getRandomToken`, indexed by
fuel (one unit per chunk inspection) to account for its partiality:
`need` slots remain to fill (Go counts `i` from `n-1` down to `0`, filling
`b[i]`, so each accepted letter is prepended), `pos` is the next chunk to
inspect.  A chunk is accepted exactly when it is below
`len(letterBytes) = 61`; chunks 61-63 are discarded. -/
def getRandomTokenAux (chunks : Nat → Nat) : Nat → Nat → Nat → List Char → Option (List Char)
  | _pos, 0, _fuel, acc => some acc
  | _pos, _need + 1, 0, _acc => none
  | pos, need + 1, fuel + 1, acc =>
    let idx := chunks pos
    if idx < letterBytes.length then
      getRandomTokenAux chunks (pos + 1) need fuel (letterBytes.getD idx ' ' :: acc)
    else
      getRandomTokenAux chunks (pos + 1) (need + 1) fuel acc

/-- Embeds `GetRandomToken` (pkg/util) and its twin `getRandomToken`
(endpoints credential file): generate `n = 20` letters from the six-bit
chunk stream of the source, with the index-rejection loop made total by a
fuel bound (`none` means the loop would still be running after `fuel`
chunk inspections). -/
def GetRandomToken (src : Nat → Nat) (fuel : Nat) : Option (List Char) :=
  getRandomTokenAux (chunkStream src) 0 20 fuel []

/-- Number of accepted (`< 61`) chunks among `chunks pos, …,
chunks (pos + fuel - 1)`. -/
def acceptCount (chunks : Nat → Nat) : Nat → Nat → Nat
  | _pos, 0 => 0
  | pos, fuel + 1 =>
    (if chunks pos < letterBytes.length then 1 else 0) + acceptCount chunks (pos + 1) fuel

/-- The adversarial random source whose every `Int63` value has all bits
set: every six-bit chunk it offers is `63`, which the loop rejects. -/
def badSrc : Nat → Nat := fun _ => 2 ^ 63 - 1

/-- The termination property claimed for the generator, stated over the
fuel-indexed embedding: for every source some amount of fuel suffices to
produce a token. -/
def getRandomTokenTerminatesOnAllSources : Prop :=
  ∀ src : Nat → Nat, ∃ fuel tok, GetRandomToken src fuel = some tok

/-- The `accessToken` data-key constant of the credential files. -/
def accessToken : String := "accessToken"

/-- The `secretToken` data-key constant of the credential files. -/
def secretToken : String := "secretToken"

/-- A Kubernetes secret, as far as this service reads one: name, namespace
(`ns`, see `Webhook`), type, and the string-keyed byte-string data map
(modelled as an association list; Go map lookups that miss return `nil`,
modelled as the key being absent). -/
structure Secret where
  name : String
  ns : String
  type : String
  data : List (String × String)
deriving DecidableEq, Repr

/-- Association-list lookup, modelling a Go map read that distinguishes
`nil` (absent, `none`) from a present value. -/
def dataLookup (d : List (String × String)) (k : String) : Option String :=
  (d.find? (fun p => p.1 == k)).map (fun p => p.2)

/-- The credential response shape (`CredentialResponse`): the request
fields plus the stored secret token. -/
structure CredentialResponse where
  name : String
  accessToken : String
  secretToken : String
deriving DecidableEq, Repr

/-- Embeds `credentialRequestToSecret`: an opaque secret named after the
request, holding the given access token and a freshly generated secret
token.  The Go function draws from the package-level `rand` source; that
source and the fuel for the (partial) generator loop are threaded
explicitly, and the never-terminating case defaults to an empty token. -/
def credentialRequestToSecret (src : Nat → Nat) (fuel : Nat)
    (cred : CredentialRequest) (ns : String) : Secret :=
  { name := cred.name
    ns := ns
    type := "Opaque"
    data := [(accessToken, cred.accessToken),
             (secretToken, ((GetRandomToken src fuel).getD []).asString)] }

/-- Embeds `secretToCredentialResponse`: Go `string(s.Data[k])` turns a
missing key (nil slice) into the empty string. -/
def secretToCredentialResponse (s : Secret) : CredentialResponse :=
  { name := s.name
    accessToken := (dataLookup s.data accessToken).getD ""
    secretToken := (dataLookup s.data secretToken).getD "" }

/-- Embeds `isCredential`: both data keys are present (non-nil). -/
def isCredential (s : Secret) : Bool :=
  (dataLookup s.data accessToken).isSome && (dataLookup s.data secretToken).isSome

/-- Whether the cluster state holds a secret of the given name. -/
def secretExists (st : List Secret) (n : String) : Bool :=
  st.any (fun s => s.name == n)

/-- Errors of the Kubernetes client calls the handlers distinguish:
`notFound` (matched by `k8serrors.IsNotFound`) versus anything else. -/
inductive K8sErr where
  | notFound
  | other (msg : String)
deriving DecidableEq, Repr

/-- Modelled from the Kubernetes API semantics used through client-go:
`Secrets(ns).Create` fails when an object of the same name already exists,
otherwise stores the new secret. -/
def k8sCreateSecret (st : List Secret) (s : Secret) : Except K8sErr (List Secret) :=
  if secretExists st s.name then Except.error (K8sErr.other "secrets already exists")
  else Except.ok (st ++ [s])

/-- Modelled from the Kubernetes API semantics used through client-go:
`Secrets(ns).Delete` removes the named secret, failing with a not-found
error when it is absent.  `fault` injects any other client failure (for
example a transport error). -/
def k8sDeleteSecret (st : List Secret) (n : String) (fault : Option String) :
    Except K8sErr (List Secret) :=
  match fault with
  | some m => Except.error (K8sErr.other m)
  | none =>
    if secretExists st n then Except.ok (st.filter (fun s => s.name != n))
    else Except.error K8sErr.notFound

/-- The slice of an HTTP response these handlers produce: the status code
written (if any) and the `Content-Location` header (if any). -/
structure HttpResponse where
  status : Option Nat
  contentLocation : Option String
deriving DecidableEq, Repr

inductive HttpMethod where
  | get
  | post
  | delete
deriving DecidableEq, Repr

/-- The slice of an HTTP request the credential handlers read. -/
structure HttpRequest where
  method : HttpMethod
  urlPath : String
deriving DecidableEq, Repr

/-- Embeds `WriteResponseLocation` (pkg/util): for POST requests, sets the
`Content-Location` header to `<request-path>/<identifier>` and writes
status `201`; for any other method it writes nothing. -/
def WriteResponseLocation (req : HttpRequest) (identifier : String) : HttpResponse :=
  if req.method ≠ HttpMethod.post then { status := none, contentLocation := none }
  else { status := some 201, contentLocation := some (req.urlPath ++ "/" ++ identifier) }

/-- A credential handler outcome: the cluster state after the call and the
response written. -/
structure CredOut where
  state : List Secret
  resp : HttpResponse
deriving DecidableEq, Repr

/-- Embeds `CreateCredential` (pkg/endpoints/credential.go lines 46-69).
`body` is the result of `request.ReadEntity` (`none` for an unreadable
body); `ns` is the configured default namespace; `src`/`fuel` thread the
token generator source as in `credentialRequestToSecret`.  Note the
`Create` failure path responds `400`, like the validation paths. -/
def CreateCredential (src : Nat → Nat) (fuel : Nat) (ns : String)
    (st : List Secret) (req : HttpRequest) (body : Option CredentialRequest) : CredOut :=
  match body with
  | none => { state := st, resp := { status := some 400, contentLocation := none } }
  | some cred =>
    if isErr cred.Validate then
      { state := st, resp := { status := some 400, contentLocation := none } }
    else
      match k8sCreateSecret st (credentialRequestToSecret src fuel cred ns) with
      | Except.error _ =>
        { state := st, resp := { status := some 400, contentLocation := none } }
      | Except.ok st2 => { state := st2, resp := WriteResponseLocation req cred.name }

/-- Embeds `DeleteCredential` (pkg/endpoints/credential.go lines 72-95):
`400` for a missing path parameter, `404` for a not-found deletion error,
`500` for any other deletion error, `204` on success. -/
def DeleteCredential (st : List Secret) (fault : Option String) (credName : String) : CredOut :=
  if credName = "" then
    { state := st, resp := { status := some 400, contentLocation := none } }
  else
    match k8sDeleteSecret st credName fault with
    | Except.error K8sErr.notFound =>
      { state := st, resp := { status := some 404, contentLocation := none } }
    | Except.error (K8sErr.other _) =>
      { state := st, resp := { status := some 500, contentLocation := none } }
    | Except.ok st2 => { state := st2, resp := { status := some 204, contentLocation := none } }

/-- The accumulation loop inside `GetAllCredentials`: walk the listed
secrets, appending a converted response for each one passing
`isCredential`. -/
def credsLoop : List Secret → List CredentialResponse → List CredentialResponse
  | [], acc => acc
  | s :: rest, acc =>
    if isCredential s then credsLoop rest (acc ++ [secretToCredentialResponse s])
    else credsLoop rest acc

/-- Embeds `GetAllCredentials` (pkg/endpoints/credential.go lines 99-120):
on a listing failure respond `500` with no body, otherwise filter-convert
the namespace's secrets and write them (go-restful's `WriteEntity` implies
status `200`). -/
def GetAllCredentials (st : List Secret) (listFault : Option String) :
    HttpResponse × List CredentialResponse :=
  match listFault with
  | some _ => ({ status := some 500, contentLocation := none }, [])
  | none => ({ status := some 200, contentLocation := none }, credsLoop st [])

/-- A pipeline parameter (`pipelinesv1alpha1.Param` with a string value). -/
structure Param where
  name : String
  value : String
deriving DecidableEq, Repr

/-- `pullRequestActions` (pkg/endpoints/webhook.go lines 45-51). -/
def pullRequestActions : Param :=
  { name := "Wext-Incoming-Actions", value := "opened,reopened,synchronize" }

structure EventListenerBinding where
  name : String
  apiVersion : String
deriving DecidableEq, Repr

structure EventListenerTemplate where
  name : String
  apiVersion : String
deriving DecidableEq, Repr

/-- `corev1.ObjectReference`, as populated by `newTrigger`. -/
structure ObjectRef where
  apiVersion : String
  kind : String
  name : String
  ns : String
deriving DecidableEq, Repr

structure EventInterceptor where
  header : List Param
  objectRef : ObjectRef
deriving DecidableEq, Repr

structure EventListenerTrigger where
  name : String
  binding : EventListenerBinding
  params : List Param
  template : EventListenerTemplate
  interceptor : EventInterceptor
deriving DecidableEq, Repr

/-- The singleton EventListener resource, as far as the service touches
it. -/
structure EventListener where
  name : String
  ns : String
  serviceAccountName : String
  triggers : List EventListenerTrigger
deriving DecidableEq, Repr

/-- The receiver of the handler methods (`Resource`): the configured
default namespace, plus the dashboard URL.  In the source the latter is
computed by `getDashboardURL` from cluster service listings and an HTTP
round trip; that is an external query, modelled as an
environment-provided value. -/
structure Resource where
  ns : String
  dashboardURL : String
deriving DecidableEq, Repr

/-- Models Go `strings.Index` for a single character (-1 when absent). -/
def goIndexOf (s : String) (c : Char) : Int :=
  match s.toList.findIdx? (fun x => x == c) with
  | some n => (n : Int)
  | none => -1

/-- Models Go `strings.LastIndex` for a single character (-1 when
absent). -/
def goLastIndexOf (s : String) (c : Char) : Int :=
  match s.toList.reverse.findIdx? (fun x => x == c) with
  | some n => ((s.toList.length - 1 - n : Nat) : Int)
  | none => -1

/-- Models Go string slicing `s[a:b]`. -/
def goSlice (s : String) (a b : Nat) : String :=
  ((s.toList.drop a).take (b - a)).asString

/-- Embeds `getGitValues` (pkg/endpoints/webhook.go lines 269-298):
lowercase, strip the scheme, and cut the server / owner / repo pieces out
of the URL; fewer than two slashes after the server is an error. -/
def getGitValues (url : String) : Except String (String × String × String) :=
  let lowered := if url = "" then url else url.toLower
  let pr : String × String :=
    if url = "" then ("", "")
    else if goContains lowered "https://" then (trimPfx lowered "https://", "https://")
    else (trimPfx lowered "http://", "http://")
  let numSlashes := pr.1.toList.count '/'
  if numSlashes < 2 then Except.error "URL did not contain an owner and repository"
  else
    let repoURL := trimSuffix pr.1 "/"
    let i := (goIndexOf repoURL '/').toNat
    let li := (goLastIndexOf repoURL '/').toNat
    let gitServer := pr.2 ++ goSlice repoURL 0 i
    let gitOwner := goSlice repoURL (i + 1) li
    let gitRepo :=
      if lowered.endsWith ".git" then goSlice repoURL (li + 1) (repoURL.length - 4)
      else goSlice repoURL (li + 1) repoURL.length
    Except.ok (gitServer, gitOwner, gitRepo)

/-- Embeds `getParams` (pkg/endpoints/webhook.go lines 190-221).  A
`getGitValues` failure is only logged in the source and the zero values
are used; the unused `saName` computation of the source is kept as a dead
binding. -/
def Resource.getParams (r : Resource) (w : Webhook) : List Param × List Param :=
  let _saName := if w.serviceAccount = "" then "default" else w.serviceAccount
  let gv : String × String × String :=
    match getGitValues w.gitRepositoryURL with
    | Except.ok v => v
    | Except.error _ => ("", "", "")
  let server := trimPfx (trimPfx gv.1 "https://") "http://"
  let hookParams :=
    [⟨"webhooks-tekton-release-name", w.gitRepositoryURL⟩,
     ⟨"webhooks-tekton-target-namespace", w.ns⟩,
     ⟨"webhooks-tekton-service-account", w.serviceAccount⟩,
     ⟨"webhooks-tekton-git-server", server⟩,
     ⟨"webhooks-tekton-git-org", gv.2.1⟩,
     ⟨"webhooks-tekton-git-repo", gv.2.2⟩] ++
    (if w.dockerRegistry ≠ "" then [⟨"webhooks-tekton-docker-registry", w.dockerRegistry⟩] else [])
  let prMonitorParams : List Param :=
    [⟨"gitsecretname", w.accessTokenRef⟩,
     ⟨"gitsecretkeyname", "accessToken"⟩,
     ⟨"dashboardurl", r.dashboardURL⟩]
  (hookParams, prMonitorParams)

/-- Embeds `newTrigger` (pkg/endpoints/webhook.go lines 139-165): the
trigger carries the binding, template, params, and an interceptor whose
header holds the trigger name, repository URL, event type, and secret
name, pointing at the validator service in the default namespace. -/
def Resource.newTrigger (r : Resource) (name bindingName templateName repoURL event secretName : String)
    (params : List Param) : EventListenerTrigger :=
  { name := name
    binding := { name := bindingName, apiVersion := "v1alpha1" }
    params := params
    template := { name := templateName, apiVersion := "v1alpha1" }
    interceptor :=
      { header :=
          [⟨"Wext-Trigger-Name", name⟩,
           ⟨"Wext-Repository-Url", repoURL⟩,
           ⟨"Wext-Incoming-Event", event⟩,
           ⟨"Wext-Secret-Name", secretName⟩]
        objectRef :=
          { apiVersion := "v1"
            kind := "Service"
            name := "tekton-webhooks-extension-validator"
            ns := r.ns } } }

/-- Embeds `updateEventListener` (pkg/endpoints/webhook.go lines 105-136):
build the push, pull-request, and monitor triggers for the webhook and
append them to the EventListener's existing triggers.  The trailing
remote `Update` call writes the returned object back; the function's
value is that written object. -/
def Resource.updateEventListener (r : Resource) (el : EventListener) (w : Webhook) : EventListener :=
  let ps := r.getParams w
  let newPushTrigger :=
    r.newTrigger (w.name ++ "-" ++ w.ns ++ "-push-event")
      (w.pipeline ++ "-push-binding") (w.pipeline ++ "-template")
      w.gitRepositoryURL "push" w.accessTokenRef ps.1
  let newPullRequestTrigger :=
    r.newTrigger (w.name ++ "-" ++ w.ns ++ "-pullrequest-event")
      (w.pipeline ++ "-pullrequest-binding") (w.pipeline ++ "-template")
      w.gitRepositoryURL "pull_request" w.accessTokenRef ps.1
  let monitorTrigger :=
    r.newTrigger "monitor-task"
      (w.pipeline ++ "-binding") (w.pipeline ++ "-template")
      w.gitRepositoryURL "pull_request" w.accessTokenRef ps.2
  { el with triggers := el.triggers ++ [newPushTrigger, newPullRequestTrigger, monitorTrigger] }

/-- The primitive effects a webhook handler can perform, in order:
acquiring/releasing `modifyingConfigMapLock`, reading the request entity,
and the remote API calls (trigger-resource reads and the EventListener
get/create/update/delete operations). -/
inductive Op where
  | lock
  | unlock
  | readEntity
  | getTriggerTemplate (name : String)
  | getTriggerBinding (name : String)
  | elGet
  | elCreate
  | elUpdate
  | elDelete
deriving DecidableEq, Repr

/-- An operation on the shared EventListener resource. -/
def isElOp : Op → Bool
  | Op.elGet => true
  | Op.elCreate => true
  | Op.elUpdate => true
  | Op.elDelete => true
  | _ => false

/-- The cluster resources the live `CreateWebhook` consults: the trigger
templates and trigger bindings in the default namespace, plus the
EventListener resources (never touched by the live code). -/
structure ClusterState where
  templates : List String
  bindings : List String
  eventListeners : List EventListener
deriving DecidableEq, Repr

/-- A webhook handler outcome: the cluster state afterwards, the status
code written to the response (if any), and the trace of primitive effects
performed. -/
structure WebhookHandlerOut where
  state : ClusterState
  response : Option Nat
  trace : List Op
deriving DecidableEq, Repr

/-- Embeds `CreateWebhook` (pkg/endpoints/webhook.go lines 302-450) — the
LIVE code only.  The handler locks `modifyingConfigMapLock` with a
deferred unlock, reads the request entity (`body`, `none` when
unreadable), validates the payload and the URL, and checks that the
pipeline's trigger template and two trigger bindings exist.  Everything
after that — duplicate checks, EventListener get/create/update, the
status poll, ingress/route creation, the GitHub task run, the ConfigMap
write, and the final `201` — is commented out in the source (lines
325-449), so a fully valid request falls off the end of the function with
no response written and no resource touched. -/
def CreateWebhook (st : ClusterState) (body : Option Webhook) : WebhookHandlerOut :=
  let inner : Option Nat × List Op :=
    match body with
    | none => (some 400, [Op.readEntity])
    | some w =>
      if isErr (checkWebhook w) then (some 400, [Op.readEntity])
      else if isErr (sanitizeGitURL w.gitRepositoryURL) then (some 400, [Op.readEntity])
      else
        let ops := [Op.readEntity,
                    Op.getTriggerTemplate (w.pipeline ++ "-template"),
                    Op.getTriggerBinding (w.pipeline ++ "-push-binding"),
                    Op.getTriggerBinding (w.pipeline ++ "-pullrequest-binding")]
        if !(st.templates.contains (w.pipeline ++ "-template")) ||
           !(st.bindings.contains (w.pipeline ++ "-push-binding")) ||
           !(st.bindings.contains (w.pipeline ++ "-pullrequest-binding")) then
          (some 400, ops)
        else (none, ops)
  { state := st, response := inner.1, trace := Op.lock :: (inner.2 ++ [Op.unlock]) }

/-- Embeds `DeleteWebhook` (pkg/endpoints/webhook.go line 570): the live
function has an empty body — its entire implementation (locking,
look-ups, trigger removal, EventListener update/delete) is commented out
(lines 572-681). -/
def DeleteWebhook (st : ClusterState) (_req : String) : WebhookHandlerOut :=
  { state := st, response := none, trace := [] }

/-- A concrete webhook request used as a test vector: well-formed in every
field, but carrying a 69-character name full of hyphens. -/
def badNameWebhook : Webhook :=
  { name := "a-very-long-hyphenated-webhook-name-that-has-more-than-57-characters"
    ns := "ns"
    serviceAccount := "sa"
    accessTokenRef := "tok"
    pipeline := "pipe"
    dockerRegistry := "reg"
    gitRepositoryURL := "https://github.com/org/repo" }

/-- A concrete, fully well-formed webhook request. -/
def hookWebhook : Webhook :=
  { name := "hook"
    ns := "ns"
    serviceAccount := "sa"
    accessTokenRef := "tok"
    pipeline := "pipe"
    dockerRegistry := "reg"
    gitRepositoryURL := "https://github.com/org/repo" }

/-- The singleton EventListener before any webhook is registered. -/
def emptyEL : EventListener :=
  { name := "tekton-webhooks-eventlistener"
    ns := "default"
    serviceAccountName := "tekton-webhooks-extension-eventlistener"
    triggers := [] }

/-- A concrete receiver configuration (default namespace and the fallback
dashboard URL from `getDashboardURL`). -/
def testResource : Resource :=
  { ns := "default", dashboardURL := "http://localhost:9097/" }

/-- A stored credential secret named `cred`. -/
def existingCredSecret : Secret :=
  { name := "cred"
    ns := "default"
    type := "Opaque"
    data := [("accessToken", "old"), ("secretToken", "oldtok")] }

/-- A POST request to the credentials endpoint. -/
def postReq : HttpRequest :=
  { method := HttpMethod.post, urlPath := "/webhooks/credentials" }

/-- A secret that carries an access token but no `secretToken` data key. -/
def tokenlessSecret : Secret :=
  { name := "s1"
    ns := "default"
    type := "Opaque"
    data := [("accessToken", "tok")] }

/-- The scheme test written in `sanitizeGitURL` is a tautology: no string
is simultaneously equal to `"http"` and `"https"`, so the disjunction of
the two disequalities always holds. -/
lemma scheme_test_tautology (s : String) : s ≠ "http" ∨ s ≠ "https" := by
  by_cases h : s = "http"
  · right
    rw [h]
    decide
  · left
    exact h

/-- `sanitizeGitURL` errors on every input: any successfully parsed URL is
rejected by the (tautological) scheme test, if not already by the hostname
test. -/
lemma sanitizeGitURL_isErr (rawurl : String) : isErr (sanitizeGitURL rawurl) = true := by
  unfold sanitizeGitURL
  cases hp : parseRequestURI (trimSuffix rawurl ".git") with
  | error e => rfl
  | ok url =>
    by_cases hh : url.hostname.endsWith ".com"
    · simp only [hh, Bool.not_true, Bool.false_eq_true, if_false,
        if_pos (scheme_test_tautology url.scheme)]
      rfl
    · simp only [Bool.not_eq_true] at hh
      simp only [hh, Bool.not_false, if_true]
      rfl

/-- `ValidateWebhookName` succeeds exactly on names that are non-empty, at
most 57 characters, and hyphen-free. -/
lemma validateWebhookName_ok_iff (n : String) :
    isErr (ValidateWebhookName n) = false ↔
      (n.length ≠ 0 ∧ n.length ≤ 57 ∧ '-' ∉ n.toList) := by
  unfold ValidateWebhookName
  split_ifs with h0 h1 h2
  · exact iff_of_false (by simp [isErr]) (fun h => h.1 h0)
  · exact iff_of_false (by simp [isErr]) (fun h => absurd h.2.1 (by omega))
  · exact iff_of_false (by simp [isErr]) (fun h => h.2.2 (by simpa using h2))
  · exact iff_of_true rfl ⟨h0, by omega, fun hm => h2 (by simpa using hm)⟩

/-- `checkWebhook` succeeds exactly when each checked field is non-empty
(emptiness is all it tests; `pipeline` is not checked at all). -/
lemma checkWebhook_ok_iff (w : Webhook) :
    isErr (checkWebhook w) = false ↔
      (w.name ≠ "" ∧ w.ns ≠ "" ∧ w.serviceAccount ≠ "" ∧
       w.accessTokenRef ≠ "" ∧ w.dockerRegistry ≠ "" ∧ w.gitRepositoryURL ≠ "") := by
  unfold checkWebhook
  by_cases h1 : w.name = "" <;>
    by_cases h2 : w.ns = "" <;>
      by_cases h3 : w.serviceAccount = "" <;>
        by_cases h4 : w.accessTokenRef = "" <;>
          by_cases h5 : w.dockerRegistry = "" <;>
            by_cases h6 : w.gitRepositoryURL = "" <;>
              simp [h1, h2, h3, h4, h5, h6, isErr]

lemma letterBytes_length : letterBytes.length = 61 := by decide

/-- An accepted index yields a letter of the alphabet. -/
lemma getD_mem_letterBytes (idx : Nat) (h : idx < letterBytes.length) :
    letterBytes.getD idx ' ' ∈ letterBytes := by
  rw [List.getD_eq_getElem letterBytes ' ' h]
  exact letterBytes.getElem_mem h

/-- Whatever the loop returns extends the accumulator by exactly `need`
letters of the alphabet. -/
lemma getRandomTokenAux_shape (chunks : Nat → Nat) :
    ∀ fuel pos need acc tok, getRandomTokenAux chunks pos need fuel acc = some tok →
      tok.length = need + acc.length ∧ ∀ c ∈ tok, c ∈ letterBytes ∨ c ∈ acc := by
  intro fuel
  induction fuel with
  | zero =>
    intro pos need acc tok h
    cases need with
    | zero =>
      simp only [getRandomTokenAux, Option.some.injEq] at h
      subst h
      exact ⟨by simp, fun c hc => Or.inr hc⟩
    | succ m => simp [getRandomTokenAux] at h
  | succ f ih =>
    intro pos need acc tok h
    cases need with
    | zero =>
      simp only [getRandomTokenAux, Option.some.injEq] at h
      subst h
      exact ⟨by simp, fun c hc => Or.inr hc⟩
    | succ m =>
      simp only [getRandomTokenAux] at h
      by_cases hidx : chunks pos < letterBytes.length
      · rw [if_pos hidx] at h
        obtain ⟨hlen, hmem⟩ := ih (pos + 1) m (letterBytes.getD (chunks pos) ' ' :: acc) tok h
        constructor
        · simp only [List.length_cons] at hlen
          omega
        · intro c hc
          rcases hmem c hc with hl | hr
          · exact Or.inl hl
          · rcases List.mem_cons.mp hr with he | ha
            · exact Or.inl (he ▸ getD_mem_letterBytes (chunks pos) hidx)
            · exact Or.inr ha
      · rw [if_neg hidx] at h
        exact ih (pos + 1) (m + 1) acc tok h

/-- If at least `need` of the next `fuel` chunks are accepted, the loop
finishes within that fuel. -/
lemma getRandomTokenAux_total (chunks : Nat → Nat) :
    ∀ fuel pos need acc, need ≤ acceptCount chunks pos fuel →
      ∃ tok, getRandomTokenAux chunks pos need fuel acc = some tok := by
  intro fuel
  induction fuel with
  | zero =>
    intro pos need acc h
    simp only [acceptCount, Nat.le_zero] at h
    subst h
    exact ⟨acc, rfl⟩
  | succ f ih =>
    intro pos need acc h
    cases need with
    | zero => exact ⟨acc, rfl⟩
    | succ m =>
      simp only [acceptCount] at h
      by_cases hidx : chunks pos < letterBytes.length
      · rw [if_pos hidx] at h
        obtain ⟨tok, htok⟩ :=
          ih (pos + 1) m (letterBytes.getD (chunks pos) ' ' :: acc) (by omega)
        exact ⟨tok, by simp only [getRandomTokenAux, if_pos hidx]; exact htok⟩
      · rw [if_neg hidx] at h
        obtain ⟨tok, htok⟩ := ih (pos + 1) (m + 1) acc (by omega)
        exact ⟨tok, by simp only [getRandomTokenAux, if_neg hidx]; exact htok⟩

lemma chunkStream_badSrc (k : Nat) : chunkStream badSrc k = 63 := by
  have hm : k % letterIdxMax < 10 := by
    have : letterIdxMax = 10 := by decide
    rw [this]
    exact Nat.mod_lt _ (by decide)
  unfold chunkStream badSrc
  set m := k % letterIdxMax with hmdef
  interval_cases m <;> decide

/-- With `badSrc`, the loop makes no progress: no amount of fuel completes
a token while slots remain. -/
lemma getRandomTokenAux_badSrc_none :
    ∀ fuel pos need acc, need ≠ 0 →
      getRandomTokenAux (chunkStream badSrc) pos need fuel acc = none := by
  intro fuel
  induction fuel with
  | zero =>
    intro pos need acc h
    cases need with
    | zero => exact absurd rfl h
    | succ m => rfl
  | succ f ih =>
    intro pos need acc h
    cases need with
    | zero => exact absurd rfl h
    | succ m =>
      have hrej : ¬ chunkStream badSrc pos < letterBytes.length := by
        rw [chunkStream_badSrc, letterBytes_length]
        omega
      simp only [getRandomTokenAux, if_neg hrej]
      exact ih (pos + 1) (m + 1) acc (by omega)

/-- The `GetAllCredentials` loop computes filter-then-map. -/
lemma credsLoop_eq_filterMap (st : List Secret) :
    ∀ acc, credsLoop st acc = acc ++ (st.filter isCredential).map secretToCredentialResponse := by
  induction st with
  | nil => intro acc; simp [credsLoop]
  | cons s rest ih =>
    intro acc
    by_cases hs : isCredential s
    · simp [credsLoop, hs, ih]
    · simp [credsLoop, hs, ih]

/-- Every path of the live `CreateWebhook` leaves the cluster untouched,
responds 400, and performs no EventListener operation: URL validation
(`sanitizeGitURL`) fails on every input, so the handler never gets past
it. -/
lemma createWebhook_dead (st : ClusterState) (body : Option Webhook) :
    (CreateWebhook st body).state = st ∧
    (CreateWebhook st body).response = some 400 ∧
    (CreateWebhook st body).trace = [Op.lock, Op.readEntity, Op.unlock] := by
  unfold CreateWebhook
  cases body with
  | none => exact ⟨rfl, rfl, rfl⟩
  | some w =>
    by_cases hc : isErr (checkWebhook w) = true
    · simp [hc]
    · simp only [Bool.not_eq_true] at hc
      simp [hc, sanitizeGitURL_isErr w.gitRepositoryURL]

/-- The live `CreateWebhook` trace is bracketed by the lock: it begins
with the acquisition and ends with the (deferred) release. -/
lemma createWebhook_lock_bracket (st : ClusterState) (body : Option Webhook) :
    (CreateWebhook st body).trace.head? = some Op.lock ∧
    (CreateWebhook st body).trace.getLast? = some Op.unlock := by
  obtain ⟨-, -, ht⟩ := createWebhook_dead st body
  rw [ht]
  exact ⟨rfl, rfl⟩


/-- C1: the claim says `sanitizeGitURL` accepts every
`http(s)://<git-site>.com/<some-org>/<some-repo>(.git)` URL and rejects
everything else.  In fact the validator rejects EVERY input — its scheme
test `url.Scheme != "http" || url.Scheme != "https"` is a tautology — so
`CreateWebhook` never proceeds past URL validation.  The first conjunct
evaluates the rejection at the repository's own positive test vector
(`Test_sanitizeGitURL` expects no error for it); the second shows no
input at all is accepted. -/
theorem c1_sanitizeGitURL_rejects_all_urls :
    isErr (sanitizeGitURL "https://gitpalace.com/some/repo") = true ∧
    ∀ rawurl, isErr (sanitizeGitURL rawurl) = true :=
  ⟨sanitizeGitURL_isErr "https://gitpalace.com/some/repo", sanitizeGitURL_isErr⟩

/-- C2 counterexample: a webhook whose 69-character name is full of
hyphens passes `CreateWebhook`'s payload validation (`checkWebhook`),
refuting the claim that validation errors on names longer than 57
characters or containing a hyphen.  (`ValidateWebhookName` — not called
by `CreateWebhook` — would have rejected it.) -/
theorem c2_counterexample_hyphenated_name_passes :
    isErr (checkWebhook badNameWebhook) = false ∧
    '-' ∈ badNameWebhook.name.toList ∧
    57 < badNameWebhook.name.length ∧
    isErr (ValidateWebhookName badNameWebhook.name) = true :=
  ⟨by decide, by decide, by decide, by decide⟩

/-- C2 amended: the name invariant (non-empty, at most 57 characters, no
hyphen) is enforced by `model.ValidateWebhookName`, which errors exactly
on its violations; but `CreateWebhook`'s payload validation
(`checkWebhook`) passes exactly the webhooks whose checked fields are
non-empty, so over-long or hyphenated names pass its name check. -/
theorem c2_amended_name_validation :
    (∀ n, isErr (ValidateWebhookName n) = false ↔
        (n.length ≠ 0 ∧ n.length ≤ 57 ∧ '-' ∉ n.toList)) ∧
    (∀ w, isErr (checkWebhook w) = false ↔
        (w.name ≠ "" ∧ w.ns ≠ "" ∧ w.serviceAccount ≠ "" ∧
         w.accessTokenRef ≠ "" ∧ w.dockerRegistry ≠ "" ∧ w.gitRepositoryURL ≠ "")) :=
  ⟨validateWebhookName_ok_iff, checkWebhook_ok_iff⟩

/-- C3: the claim says a valid `CreateWebhook` request (with the trigger
template and bindings present) fetches or initializes the EventListener,
appends the new triggers, and writes it back.  The live handler does none
of this on ANY input: it leaves the cluster untouched, performs no
EventListener operation, and always responds 400 (URL validation fails
on every input, and the whole EventListener path is commented out in the
source). -/
theorem c3_createWebhook_never_touches_eventListener :
    ∀ (st : ClusterState) (body : Option Webhook),
      (CreateWebhook st body).state = st ∧
      (CreateWebhook st body).trace.filter isElOp = [] ∧
      (CreateWebhook st body).response = some 400 := by
  intro st body
  obtain ⟨h1, h2, h3⟩ := createWebhook_dead st body
  exact ⟨h1, by rw [h3]; rfl, h2⟩

/-- C4 counterexample: the claim says every trigger built for a webhook is
named `<webhook>-<postfix>`.  For the webhook named `hook` the three
appended triggers are the push and pull-request triggers (which do carry
the `hook-` prefix) and the monitor trigger, whose name is the fixed
string `monitor-task` — not prefixed by the webhook name. -/
theorem c4_counterexample_monitor_trigger_name :
    ((testResource.updateEventListener emptyEL hookWebhook).triggers.map
        EventListenerTrigger.name) =
      ["hook-ns-push-event", "hook-ns-pullrequest-event", "monitor-task"] ∧
    ("hook" ++ "-").toList.isPrefixOf ("monitor-task").toList = false :=
  ⟨rfl, by decide⟩

/-- C4 amended: `updateEventListener` appends exactly three triggers,
leaving pre-existing triggers unchanged; the push and pull-request
triggers are named `<webhook>-<namespace>-push-event` and
`<webhook>-<namespace>-pullrequest-event`, the monitor trigger is always
named `monitor-task`; and every appended trigger's interceptor header
carries the trigger name, repository URL, event type, and secret name. -/
theorem c4_amended_trigger_shape (r : Resource) (el : EventListener) (w : Webhook) :
    ∃ pushT prT monT : EventListenerTrigger,
      (r.updateEventListener el w).triggers = el.triggers ++ [pushT, prT, monT] ∧
      pushT.name = w.name ++ "-" ++ w.ns ++ "-push-event" ∧
      prT.name = w.name ++ "-" ++ w.ns ++ "-pullrequest-event" ∧
      monT.name = "monitor-task" ∧
      (∀ t ∈ [pushT, prT, monT], ∃ ev,
        t.interceptor.header =
          [{ name := "Wext-Trigger-Name", value := t.name },
           { name := "Wext-Repository-Url", value := w.gitRepositoryURL },
           { name := "Wext-Incoming-Event", value := ev },
           { name := "Wext-Secret-Name", value := w.accessTokenRef }]) := by
  refine ⟨_, _, _, rfl, rfl, rfl, rfl, ?_⟩
  intro t ht
  simp only [List.mem_cons, List.not_mem_nil, or_false] at ht
  rcases ht with rfl | rfl | rfl
  · exact ⟨"push", rfl⟩
  · exact ⟨"pull_request", rfl⟩
  · exact ⟨"pull_request", rfl⟩

/-- C5 counterexample: the claim says `CreateCredential` responds 400 and
creates no secret EXACTLY when the body is unreadable or a field is
empty.  But a readable request with non-empty name and access token also
gets 400 (and no new secret) when the cluster rejects the creation — here
because a secret named `cred` already exists. -/
theorem c5_counterexample_duplicate_name_400 :
    (CreateCredential (fun _ => 0) 20 "default" [existingCredSecret] postReq
        (some { name := "cred", accessToken := "tok" })).resp.status = some 400 ∧
    (CreateCredential (fun _ => 0) 20 "default" [existingCredSecret] postReq
        (some { name := "cred", accessToken := "tok" })).state = [existingCredSecret] ∧
    ("cred" : String) ≠ "" ∧ ("tok" : String) ≠ "" :=
  ⟨by decide, by decide, by decide, by decide⟩

/-- C5 amended: `CreateCredential` responds 400 and creates no secret
exactly when the body is unreadable, the name or access token is empty,
or the cluster rejects the secret creation (e.g. the name already
exists); otherwise it stores the converted secret — opaque, named after
the request, holding the access token under `accessToken` and the
generated token under `secretToken` — and (for a POST request) responds
201 with a `Content-Location` header ending in the credential name. -/
theorem c5_amended_createCredential_spec (src : Nat → Nat) (fuel : Nat) (ns : String)
    (st : List Secret) (req : HttpRequest) (hpost : req.method = HttpMethod.post) :
    (CreateCredential src fuel ns st req none =
      { state := st, resp := { status := some 400, contentLocation := none } }) ∧
    (∀ cred : CredentialRequest,
      CreateCredential src fuel ns st req (some cred) =
        if cred.name = "" ∨ cred.accessToken = "" then
          { state := st, resp := { status := some 400, contentLocation := none } }
        else if secretExists st cred.name then
          { state := st, resp := { status := some 400, contentLocation := none } }
        else
          { state := st ++ [credentialRequestToSecret src fuel cred ns]
            resp := { status := some 201
                      contentLocation := some ((req.urlPath ++ "/") ++ cred.name) } }) ∧
    (∀ cred : CredentialRequest,
      (credentialRequestToSecret src fuel cred ns).type = "Opaque" ∧
      (credentialRequestToSecret src fuel cred ns).name = cred.name ∧
      dataLookup (credentialRequestToSecret src fuel cred ns).data accessToken =
        some cred.accessToken ∧
      dataLookup (credentialRequestToSecret src fuel cred ns).data secretToken =
        some (((GetRandomToken src fuel).getD []).asString)) := by
  refine ⟨rfl, ?_, ?_⟩
  · intro cred
    unfold CreateCredential CredentialRequest.Validate k8sCreateSecret
    by_cases hn : cred.name = ""
    · simp [hn, isErr]
    · by_cases ha : cred.accessToken = ""
      · simp [hn, ha, isErr]
      · by_cases he : secretExists st (credentialRequestToSecret src fuel cred ns).name
        · have he2 : secretExists st cred.name := he
          simp [hn, ha, he, he2, isErr]
        · have he2 : ¬ secretExists st cred.name := he
          simp [hn, ha, he, he2, isErr, WriteResponseLocation, hpost,
            String.append_assoc]
  · intro cred
    refine ⟨rfl, rfl, ?_, ?_⟩
    · simp [dataLookup, credentialRequestToSecret, accessToken, List.find?]
    · simp [dataLookup, credentialRequestToSecret, accessToken, secretToken, List.find?]

/-- C5 amended witness: a concrete successful creation — empty cluster,
POST request, readable body with non-empty fields — responds 201. -/
theorem c5_amended_createCredential_spec_witness :
    postReq.method = HttpMethod.post ∧
    (CreateCredential (fun _ => 0) 20 "default" [] postReq
        (some { name := "cred", accessToken := "tok" })).resp.status = some 201 := by
  refine ⟨rfl, ?_⟩
  rw [(c5_amended_createCredential_spec (fun _ => 0) 20 "default" [] postReq rfl).2.1
    { name := "cred", accessToken := "tok" }]
  decide

/-- C6: every token the generator returns has exactly 20 characters, each
drawn from the 61-character alphanumeric alphabet `letterBytes`. -/
theorem c6_token_length_and_alphabet (src : Nat → Nat) (fuel : Nat) (tok : List Char)
    (h : GetRandomToken src fuel = some tok) :
    tok.length = 20 ∧ ∀ c ∈ tok, c ∈ letterBytes := by
  obtain ⟨hlen, hmem⟩ := getRandomTokenAux_shape (chunkStream src) fuel 0 20 [] tok h
  refine ⟨by simpa using hlen, fun c hc => ?_⟩
  rcases hmem c hc with h1 | h1
  · exact h1
  · exact absurd h1 (List.not_mem_nil c)

/-- C6 witness: the all-zero source yields the 20-character token of
`'1'`s, which has length 20 and lies in the alphabet. -/
theorem c6_token_length_and_alphabet_witness :
    GetRandomToken (fun _ => 0) 20 = some (List.replicate 20 '1') ∧
    (List.replicate 20 '1').length = 20 ∧
    ∀ c ∈ List.replicate 20 '1', c ∈ letterBytes :=
  ⟨by decide, c6_token_length_and_alphabet (fun _ => 0) 20 _ (by decide)⟩

/-- C7: `DeleteCredential` responds 400 (leaving the cluster unchanged)
when no name is supplied, 204 after removing the named secret when it
exists, 404 (unchanged) when it does not, and 500 on any other deletion
error. -/
theorem c7_deleteCredential_spec (st : List Secret) (credName : String) :
    ((DeleteCredential st none credName).resp.status =
      if credName = "" then some 400
      else if secretExists st credName then some 204 else some 404) ∧
    ((DeleteCredential st none credName).state =
      if credName = "" then st
      else if secretExists st credName then st.filter (fun s => s.name != credName) else st) ∧
    (∀ e, credName ≠ "" → (DeleteCredential st (some e) credName).resp.status = some 500) := by
  unfold DeleteCredential k8sDeleteSecret
  by_cases h0 : credName = ""
  · simp [h0]
  · by_cases h1 : secretExists st credName
    · simp [h0, h1]
    · simp [h0, h1]

/-- C7 witness: a concrete delete with an injected non-not-found client
error responds 500. -/
theorem c7_deleteCredential_spec_witness :
    ("cred" : String) ≠ "" ∧
    (DeleteCredential [] (some "transport error") "cred").resp.status = some 500 :=
  ⟨by decide, (c7_deleteCredential_spec [] "cred").2.2 "transport error" (by decide)⟩

/-- C8: `GetAllCredentials` returns exactly the listed secrets passing
`isCredential`, converted to credential responses (and status 200); any
secret missing either token key is not among those converted. -/
theorem c8_getAllCredentials_spec (st : List Secret) :
    (GetAllCredentials st none).2 = (st.filter isCredential).map secretToCredentialResponse ∧
    (GetAllCredentials st none).1.status = some 200 ∧
    (∀ s, s ∈ st →
      (dataLookup s.data accessToken = none ∨ dataLookup s.data secretToken = none) →
      s ∉ st.filter isCredential) := by
  refine ⟨?_, rfl, ?_⟩
  · show credsLoop st [] = _
    simpa using credsLoop_eq_filterMap st []
  · intro s _hs hmiss hmem
    rw [List.mem_filter] at hmem
    rcases hmiss with h | h <;> simp [isCredential, h] at hmem

/-- C8 witness: a secret lacking the `secretToken` key is listed in the
cluster yet excluded from the filtered credentials. -/
theorem c8_getAllCredentials_spec_witness :
    tokenlessSecret ∈ [tokenlessSecret] ∧
    dataLookup tokenlessSecret.data secretToken = none ∧
    tokenlessSecret ∉ [tokenlessSecret].filter isCredential :=
  ⟨by decide, by decide,
    (c8_getAllCredentials_spec [tokenlessSecret]).2.2 tokenlessSecret (by decide)
      (Or.inr (by decide))⟩

/-- C9: the claim says `CreateWebhook` and `DeleteWebhook` each hold
`modifyingConfigMapLock` for their entire execution.  Only `CreateWebhook`
does — its effect trace begins with the acquisition and ends with the
deferred release.  `DeleteWebhook` is an empty stub: it performs no
operations at all, and in particular never acquires the lock (its locking
delete logic is commented out in the source). -/
theorem c9_lock_discipline :
    (∀ (st : ClusterState) (body : Option Webhook),
      (CreateWebhook st body).trace.head? = some Op.lock ∧
      (CreateWebhook st body).trace.getLast? = some Op.unlock) ∧
    (∀ (st : ClusterState) (req : String),
      DeleteWebhook st req = { state := st, response := none, trace := [] }) :=
  ⟨createWebhook_lock_bracket, fun _ _ => rfl⟩

/-- C10 counterexample: the generator does NOT terminate for every random
source.  The source whose every `Int63` value has all 63 bits set offers
only rejected six-bit indices (63 ≥ 61), so no amount of fuel completes a
token. -/
theorem c10_counterexample_nonterminating_source :
    ¬ getRandomTokenTerminatesOnAllSources := by
  intro h
  obtain ⟨fuel, tok, htok⟩ := h badSrc
  rw [GetRandomToken, getRandomTokenAux_badSrc_none fuel 0 20 [] (by omega)] at htok
  exact Option.noConfusion htok

/-- C10 amended: the rejection loop terminates with a fully populated
20-character token whenever the source's six-bit index stream offers at
least 20 accepted (below-61) values among the inspected chunks — but a
source all of whose indices are rejected (61, 62 or 63 forever) makes the
loop run forever, so termination does not hold for every source. -/
theorem c10_amended_conditional_termination (src : Nat → Nat) (fuel : Nat)
    (h : 20 ≤ acceptCount (chunkStream src) 0 fuel) :
    ∃ tok, GetRandomToken src fuel = some tok ∧ tok.length = 20 := by
  obtain ⟨tok, htok⟩ := getRandomTokenAux_total (chunkStream src) fuel 0 20 [] h
  refine ⟨tok, htok, ?_⟩
  have hl := (getRandomTokenAux_shape (chunkStream src) fuel 0 20 [] tok htok).1
  simpa using hl

/-- C10 amended witness: the all-zero source offers 20 accepted chunks in
its first 20, so fuel 20 produces a 20-character token. -/
theorem c10_amended_conditional_termination_witness :
    20 ≤ acceptCount (chunkStream (fun _ => 0)) 0 20 ∧
    ∃ tok, GetRandomToken (fun _ => 0) 20 = some tok ∧ tok.length = 20 :=
  ⟨by decide, c10_amended_conditional_termination (fun _ => 0) 20 (by decide)⟩
